import Mathlib

/-!
Verification of the security-descriptor binary decoder in
`src/enums/secdesc.rs` (RustHound).  The decoders are shallowly embedded:
each nom parser becomes a Lean function from a byte list to either a
decode error or a pair of the decoded record and the unconsumed bytes.
Bytes are modelled as natural numbers; every multi-byte integer is read
little-endian exactly as the `le_u8/le_u16/le_u32/le_u128` nom
combinators of the source do.
-/

/-- The failure modes of the decoder.  `insufficientData` models the nom
error produced by the `complete`-mode number combinators and `take!` when
the input is exhausted; `unrecognizedVariant` models the error produced by
the defaultless `switch!` dispatch in `Ace::parse`; `panicUnwrap` models a
Rust panic from `Option::unwrap` on `None` (used by
`ObjectAceFlags::parse`). -/
inductive DecodeError where
  | insufficientData
  | unrecognizedVariant
  | panicUnwrap
deriving DecidableEq, Repr

deriving instance DecidableEq for Except

/-- Model of nom `take!(n)`: consume exactly `n` bytes or fail. -/
def takeBytes (n : Nat) (s : List Nat) : Except DecodeError (List Nat × List Nat) :=
  if n ≤ s.length then .ok (s.take n, s.drop n) else .error .insufficientData

/-- Little-endian value of a byte list (first byte is least significant),
as computed by nom's `le_u16/le_u32/le_u128`. -/
def leVal : List Nat → Nat
  | [] => 0
  | b :: bs => b + 256 * leVal bs

/-- Model of nom `le_u8`. -/
def le_u8 (s : List Nat) : Except DecodeError (Nat × List Nat) := do
  let (bs, r) ← takeBytes 1 s
  .ok (leVal bs, r)

/-- Model of nom `le_u16` (little-endian). -/
def le_u16 (s : List Nat) : Except DecodeError (Nat × List Nat) := do
  let (bs, r) ← takeBytes 2 s
  .ok (leVal bs, r)

/-- Model of nom `le_u32` (little-endian). -/
def le_u32 (s : List Nat) : Except DecodeError (Nat × List Nat) := do
  let (bs, r) ← takeBytes 4 s
  .ok (leVal bs, r)

/-- Model of nom `le_u128` (little-endian). -/
def le_u128 (s : List Nat) : Except DecodeError (Nat × List Nat) := do
  let (bs, r) ← takeBytes 16 s
  .ok (leVal bs, r)

/-- Model of nom `count!(p, n)`: run `p` exactly `n` times, collecting the
results; the first failure aborts the whole run with that error. -/
def countP (p : List Nat → Except DecodeError (α × List Nat)) : Nat → List Nat → Except DecodeError (List α × List Nat)
  | 0, s => .ok ([], s)
  | n + 1, s => do
    let (a, s1) ← p s
    let (as, s2) ← countP p n s1
    .ok (a :: as, s2)

/-- Modelled from the spec: the numeric ACE type-tag constants live in the
collaborating module `crate::enums::constants`, which is outside the
decoding core supplied here.  The values are the standard wire values the
spec's test vectors use (0x00 access-allowed, 0x01 access-denied, 0x05
access-allowed-object, 0x06 access-denied-object). -/
def ACCESS_ALLOWED_ACE_TYPE : Nat := 0x00

/-- Modelled from the spec: see `ACCESS_ALLOWED_ACE_TYPE`. -/
def ACCESS_DENIED_ACE_TYPE : Nat := 0x01

/-- Modelled from the spec: see `ACCESS_ALLOWED_ACE_TYPE`. -/
def ACCESS_ALLOWED_OBJECT_ACE_TYPE : Nat := 0x05

/-- Modelled from the spec: see `ACCESS_ALLOWED_ACE_TYPE`. -/
def ACCESS_DENIED_OBJECT_ACE_TYPE : Nat := 0x06

/-- `struct SecurityDescriptor` of the source. -/
structure SecurityDescriptor where
  revision : Nat
  sbz1 : Nat
  control : Nat
  offset_owner : Nat
  offset_group : Nat
  offset_sacl : Nat
  offset_dacl : Nat
deriving DecidableEq, Repr

/-- `SecurityDescriptor::parse`: revision, sbz1 (1 byte each), control
(le_u16), then the four offsets (le_u32 each). -/
def SecurityDescriptor.parse (s : List Nat) : Except DecodeError (SecurityDescriptor × List Nat) := do
  let (revision, s1) ← le_u8 s
  let (sbz1, s2) ← le_u8 s1
  let (control, s3) ← le_u16 s2
  let (offset_owner, s4) ← le_u32 s3
  let (offset_group, s5) ← le_u32 s4
  let (offset_sacl, s6) ← le_u32 s5
  let (offset_dacl, s7) ← le_u32 s6
  .ok ({ revision, sbz1, control, offset_owner, offset_group,
         offset_sacl, offset_dacl }, s7)

/-- `struct LdapSidIdentifiedAuthority` of the source: 6 raw bytes. -/
structure LdapSidIdentifiedAuthority where
  value : List Nat
deriving DecidableEq, Repr

/-- `LdapSidIdentifiedAuthority::parse`: `take!(6)`. -/
def LdapSidIdentifiedAuthority.parse (s : List Nat) :
    Except DecodeError (LdapSidIdentifiedAuthority × List Nat) := do
  let (v, r) ← takeBytes 6 s
  .ok ({ value := v }, r)

/-- `struct LdapSid` of the source. -/
structure LdapSid where
  revision : Nat
  sub_authority_count : Nat
  identifier_authority : LdapSidIdentifiedAuthority
  sub_authority : List Nat
deriving DecidableEq, Repr

/-- `LdapSid::parse`: revision, sub_authority_count (1 byte each), the
6-byte authority, then `count!(le_u32, sub_authority_count)`. -/
def LdapSid.parse (s : List Nat) : Except DecodeError (LdapSid × List Nat) := do
  let (revision, s1) ← le_u8 s
  let (sub_authority_count, s2) ← le_u8 s1
  let (identifier_authority, s3) ← LdapSidIdentifiedAuthority.parse s2
  let (sub_authority, s4) ← countP le_u32 sub_authority_count s3
  .ok ({ revision, sub_authority_count, identifier_authority,
         sub_authority }, s4)

/-- `ObjectAceFlags` bitflags struct of the source: a 32-bit bitmask whose
defined bits are `ACE_OBJECT_PRESENT = 0x1` and
`ACE_INHERITED_OBJECT_PRESENT = 0x2`. -/
structure ObjectAceFlags where
  bits : Nat
deriving DecidableEq, Repr

/-- `ObjectAceFlags::ACE_OBJECT_PRESENT`. -/
def ObjectAceFlags.ACE_OBJECT_PRESENT : ObjectAceFlags := ⟨0x1⟩

/-- `ObjectAceFlags::ACE_INHERITED_OBJECT_PRESENT`. -/
def ObjectAceFlags.ACE_INHERITED_OBJECT_PRESENT : ObjectAceFlags := ⟨0x2⟩

/-- `bitflags`-generated `ObjectAceFlags::from_bits`: `Some` iff no bit
outside the defined set `0x3` is set (the complement is taken at the
32-bit width of the flags type). -/
def ObjectAceFlags.from_bits (n : Nat) : Option ObjectAceFlags :=
  if n &&& 0xFFFFFFFC == 0 then some ⟨n⟩ else none

/-- `bitflags`-generated `contains`: all bits of the argument are set. -/
def ObjectAceFlags.containsF (a b : ObjectAceFlags) : Bool :=
  a.bits &&& b.bits == b.bits

/-- `ObjectAceFlags::parse`: read a `le_u32` and feed it to
`from_bits(..).unwrap()`; the unwrap panics when `from_bits` is `None`,
modelled by the `panicUnwrap` error. -/
def ObjectAceFlags.parse (s : List Nat) : Except DecodeError (ObjectAceFlags × List Nat) := do
  let (v, r) ← le_u32 s
  match ObjectAceFlags.from_bits v with
  | some f => .ok (f, r)
  | none => .error .panicUnwrap

/-- `struct AccessAllowedAce` of the source. -/
structure AccessAllowedAce where
  mask : Nat
  sid : LdapSid
deriving DecidableEq, Repr

/-- `struct AccessAllowedObjectAce` of the source. -/
structure AccessAllowedObjectAce where
  mask : Nat
  flags : ObjectAceFlags
  object_type : Option Nat
  inherited_object_type : Option Nat
  sid : LdapSid
deriving DecidableEq, Repr

/-- `enum AceFormat` of the source, including the dead `Empty` variant. -/
inductive AceFormat where
  | aceAllowed (ace : AccessAllowedAce)
  | aceObjectAllowed (ace : AccessAllowedObjectAce)
  | empty
deriving DecidableEq, Repr

/-- `AccessAllowedAce::parse` (returns `AceFormat`, as in the source):
le_u32 mask then the SID. -/
def AccessAllowedAce.parse (s : List Nat) : Except DecodeError (AceFormat × List Nat) := do
  let (mask, s1) ← le_u32 s
  let (sid, s2) ← LdapSid.parse s1
  .ok (.aceAllowed { mask, sid }, s2)

/-- Model of nom `cond!(c, p)`: run `p` only when `c` holds, wrapping the
result in `Option`. -/
def condP {α : Type} (c : Bool)
    (p : List Nat → Except DecodeError (α × List Nat)) (s : List Nat) :
    Except DecodeError (Option α × List Nat) :=
  if c then
    match p s with
    | .ok (a, r) => .ok (some a, r)
    | .error e => .error e
  else .ok (none, s)

/-- `AccessAllowedObjectAce::parse` (returns `AceFormat`): le_u32 mask,
the flags word, a `cond!` le_u128 object-type GUID iff
`ACE_OBJECT_PRESENT` is set, a `cond!` le_u128 inherited-object-type GUID
iff `ACE_INHERITED_OBJECT_PRESENT` is set, then the SID. -/
def AccessAllowedObjectAce.parse (s : List Nat) : Except DecodeError (AceFormat × List Nat) := do
  let (mask, s1) ← le_u32 s
  let (flags, s2) ← ObjectAceFlags.parse s1
  let (object_type, s3) ←
    condP (flags.containsF ObjectAceFlags.ACE_OBJECT_PRESENT) le_u128 s2
  let (inherited_object_type, s4) ←
    condP (flags.containsF ObjectAceFlags.ACE_INHERITED_OBJECT_PRESENT)
      le_u128 s3
  let (sid, s5) ← LdapSid.parse s4
  .ok (.aceObjectAllowed { mask, flags, object_type, inherited_object_type,
                           sid }, s5)

/-- `struct Ace` of the source. -/
structure Ace where
  ace_type : Nat
  ace_flags : Nat
  ace_size : Nat
  data : AceFormat
deriving DecidableEq, Repr

/-- `Ace::parse`: 4-byte header (type, flags, le_u16 size) then
`switch!` on the type tag with no default arm — an unknown tag fails with
`unrecognizedVariant`. -/
def Ace.parse (s : List Nat) : Except DecodeError (Ace × List Nat) := do
  let (ace_type, s1) ← le_u8 s
  let (ace_flags, s2) ← le_u8 s1
  let (ace_size, s3) ← le_u16 s2
  let (data, s4) ←
    if ace_type = ACCESS_ALLOWED_ACE_TYPE then AccessAllowedAce.parse s3
    else if ace_type = ACCESS_DENIED_ACE_TYPE then AccessAllowedAce.parse s3
    else if ace_type = ACCESS_ALLOWED_OBJECT_ACE_TYPE then
      AccessAllowedObjectAce.parse s3
    else if ace_type = ACCESS_DENIED_OBJECT_ACE_TYPE then
      AccessAllowedObjectAce.parse s3
    else .error .unrecognizedVariant
  .ok ({ ace_type, ace_flags, ace_size, data }, s4)

/-- `AceFormat::get_mask`. -/
def AceFormat.get_mask (value : AceFormat) : Option Nat :=
  match value with
  | .aceAllowed ace => some ace.mask
  | .aceObjectAllowed ace => some ace.mask
  | .empty => none

/-- `AceFormat::get_sid`. -/
def AceFormat.get_sid (value : AceFormat) : Option LdapSid :=
  match value with
  | .aceAllowed ace => some ace.sid
  | .aceObjectAllowed ace => some ace.sid
  | .empty => none

/-- `AceFormat::get_flags`. -/
def AceFormat.get_flags (value : AceFormat) : Option ObjectAceFlags :=
  match value with
  | .aceAllowed _ => none
  | .aceObjectAllowed ace => some ace.flags
  | .empty => none

/-- `AceFormat::get_object_type`. -/
def AceFormat.get_object_type (value : AceFormat) : Option Nat :=
  match value with
  | .aceAllowed _ => none
  | .aceObjectAllowed ace => ace.object_type
  | .empty => none

/-- `AceFormat::get_inherited_object_type`. -/
def AceFormat.get_inherited_object_type (value : AceFormat) : Option Nat :=
  match value with
  | .aceAllowed _ => none
  | .aceObjectAllowed ace => ace.inherited_object_type
  | .empty => none

/-- `struct Acl` of the source. -/
structure Acl where
  acl_revision : Nat
  sbz1 : Nat
  acl_size : Nat
  ace_count : Nat
  sbz2 : Nat
  data : List Ace
deriving DecidableEq, Repr

/-- `Acl::parse`: 8-byte header (revision, sbz1, le_u16 acl_size,
le_u16 ace_count, le_u16 sbz2) then `count!(Ace::parse, ace_count)`. -/
def Acl.parse (s : List Nat) : Except DecodeError (Acl × List Nat) := do
  let (acl_revision, s1) ← le_u8 s
  let (sbz1, s2) ← le_u8 s1
  let (acl_size, s3) ← le_u16 s2
  let (ace_count, s4) ← le_u16 s3
  let (sbz2, s5) ← le_u16 s4
  let (data, s6) ← countP Ace.parse ace_count s5
  .ok ({ acl_revision, sbz1, acl_size, ace_count, sbz2, data }, s6)

/-- The 16-byte SID test vector used by the spec and the source's tests. -/
def sidExampleBytes : List Nat :=
  [0x01, 0x02, 0x00, 0x00, 0x00, 0x00, 0x00, 0x05,
   0x20, 0x00, 0x00, 0x00, 0x20, 0x02, 0x00, 0x00]

/-- The GUID bytes of the source's object-ACE test vector. -/
def guidExampleBytes : List Nat :=
  [0xba, 0x7a, 0x96, 0xbf, 0xe6, 0x0d, 0xd0, 0x11,
   0xa2, 0x85, 0x00, 0xaa, 0x00, 0x30, 0x49, 0xe2]

/-- The record decoded from `sidExampleBytes`. -/
def sidExampleRecord : LdapSid :=
  { revision := 1, sub_authority_count := 2,
    identifier_authority := ⟨[0, 0, 0, 0, 0, 5]⟩,
    sub_authority := [0x20, 0x220] }

/-- The bytes of the source's allowed-ACE test vector. -/
def aceAllowedExampleBytes : List Nat :=
  [0x00, 0x12, 0x18, 0x00, 0xbd, 0x01, 0x0f, 0x00] ++ sidExampleBytes

/-- The record decoded from `aceAllowedExampleBytes`. -/
def aceExampleRecord : Ace :=
  { ace_type := 0, ace_flags := 0x12, ace_size := 0x18,
    data := .aceAllowed { mask := 0x000f01bd, sid := sidExampleRecord } }

/-- An ACL record with one entry and a deliberately wrong declared
size. -/
def aclExampleRecord : Acl :=
  { acl_revision := 2, sbz1 := 0, acl_size := 99, ace_count := 1,
    sbz2 := 0, data := [aceExampleRecord] }

@[simp]
theorem bind_ok_eq {α β : Type} (a : α) (f : α → Except DecodeError β) :
    (Except.ok a >>= f) = f a := rfl

@[simp]
theorem bind_error_eq {α β : Type} (e : DecodeError) (f : α → Except DecodeError β) :
    ((Except.error e : Except DecodeError α) >>= f) = .error e := rfl

theorem le_u8_cons (b : Nat) (t : List Nat) : le_u8 (b :: t) = .ok (b, t) := by
  simp [le_u8, takeBytes, leVal]

theorem le_u8_nil : le_u8 [] = .error .insufficientData := by rfl

theorem le_u32_eq (s : List Nat) :
    le_u32 s = if 4 ≤ s.length then .ok (leVal (s.take 4), s.drop 4)
               else .error .insufficientData := by
  unfold le_u32 takeBytes
  split <;> rfl

theorem le_u16_eq (s : List Nat) :
    le_u16 s = if 2 ≤ s.length then .ok (leVal (s.take 2), s.drop 2)
               else .error .insufficientData := by
  unfold le_u16 takeBytes
  split <;> rfl

theorem le_u128_eq (s : List Nat) :
    le_u128 s = if 16 ≤ s.length then .ok (leVal (s.take 16), s.drop 16)
                else .error .insufficientData := by
  unfold le_u128 takeBytes
  split <;> rfl

theorem countP_le_u32_ok (k : Nat) :
    ∀ t : List Nat, 4 * k ≤ t.length →
      ∃ l : List Nat, countP le_u32 k t = .ok (l, t.drop (4 * k)) ∧ l.length = k := by
  induction k with
  | zero => intro t _; exact ⟨[], rfl, rfl⟩
  | succ k ih =>
    intro t ht
    have h4 : 4 ≤ t.length := by omega
    have hrec : 4 * k ≤ (t.drop 4).length := by
      simp [List.length_drop]; omega
    obtain ⟨l, hl, hlen⟩ := ih (t.drop 4) hrec
    refine ⟨leVal (t.take 4) :: l, ?_, by simp [hlen]⟩
    simp only [countP, le_u32_eq, if_pos h4, Except.bind, bind]
    rw [hl]
    simp [List.drop_drop]
    congr 1
    omega

theorem countP_le_u32_err (k : Nat) :
    ∀ t : List Nat, t.length < 4 * k →
      countP le_u32 k t = .error .insufficientData := by
  induction k with
  | zero => intro t ht; omega
  | succ k ih =>
    intro t ht
    by_cases h4 : 4 ≤ t.length
    · have hrec : (t.drop 4).length < 4 * k := by
        simp [List.length_drop]; omega
      simp only [countP, le_u32_eq, if_pos h4, bind_ok_eq, ih _ hrec,
                 bind_error_eq]
    · simp only [countP, le_u32_eq, if_neg h4, bind_error_eq]

theorem authority_parse_eq (s : List Nat) :
    LdapSidIdentifiedAuthority.parse s =
      if 6 ≤ s.length then .ok (⟨s.take 6⟩, s.drop 6)
      else .error .insufficientData := by
  unfold LdapSidIdentifiedAuthority.parse takeBytes
  split <;> rfl

theorem ldapSid_parse_enough_ok (a n : Nat) (u : List Nat)
    (h : 6 + 4 * n ≤ u.length) :
    ∃ l, LdapSid.parse (a :: n :: u) =
      .ok ({ revision := a, sub_authority_count := n,
             identifier_authority := ⟨u.take 6⟩,
             sub_authority := l }, u.drop (6 + 4 * n)) ∧ l.length = n := by
  have h6 : 6 ≤ u.length := by omega
  have hcount : 4 * n ≤ (u.drop 6).length := by
    simp [List.length_drop]; omega
  obtain ⟨l, hl, hlen⟩ := countP_le_u32_ok n (u.drop 6) hcount
  refine ⟨l, ?_, hlen⟩
  simp only [LdapSid.parse, le_u8_cons, bind_ok_eq,
             authority_parse_eq, if_pos h6, hl,
             List.drop_drop]

theorem ldapSid_parse_truncated_err (a n : Nat) (u : List Nat)
    (h : u.length < 6 + 4 * n) :
    LdapSid.parse (a :: n :: u) = .error .insufficientData := by
  by_cases h6 : 6 ≤ u.length
  · have hrec : (u.drop 6).length < 4 * n := by
      simp [List.length_drop]; omega
    simp only [LdapSid.parse, le_u8_cons, bind_ok_eq,
               authority_parse_eq, if_pos h6,
               countP_le_u32_err n _ hrec, bind_error_eq]
  · simp only [LdapSid.parse, le_u8_cons, bind_ok_eq,
               authority_parse_eq, if_neg h6, bind_error_eq]

theorem ldapSid_parse_nil : LdapSid.parse [] = .error .insufficientData := rfl

theorem ldapSid_parse_single (a : Nat) :
    LdapSid.parse [a] = .error .insufficientData := by
  simp [LdapSid.parse, le_u8_cons, le_u8_nil]

/-- C2: `LdapSid::parse` succeeds iff at least `8 + 4*N` bytes are
available, where `N` is the sub-authority count read from the second
byte; on success it consumes exactly `8 + 4*N` bytes and the decoded
sub-authority list has length equal to the decoded count field; any
shorter input fails with `InsufficientData`. -/
theorem c2_sid_decode_characterization (s : List Nat) :
    ((∃ sid r, LdapSid.parse s = .ok (sid, r)) ↔
        8 + 4 * (s[1]?).getD 0 ≤ s.length)
    ∧ (∀ sid r, LdapSid.parse s = .ok (sid, r) →
        r = s.drop (8 + 4 * (s[1]?).getD 0)
        ∧ sid.sub_authority.length = sid.sub_authority_count
        ∧ sid.sub_authority_count = (s[1]?).getD 0)
    ∧ (s.length < 8 + 4 * (s[1]?).getD 0 →
        LdapSid.parse s = .error .insufficientData) := by
  match s with
  | [] =>
    refine ⟨?_, ?_, ?_⟩
    · simp [ldapSid_parse_nil]
    · intro sid r h
      rw [ldapSid_parse_nil] at h
      exact absurd h (by simp)
    · intro _
      exact ldapSid_parse_nil
  | [a] =>
    refine ⟨?_, ?_, ?_⟩
    · simp [ldapSid_parse_single]
    · intro sid r h
      rw [ldapSid_parse_single] at h
      exact absurd h (by simp)
    · intro _
      exact ldapSid_parse_single a
  | a :: n :: u =>
    have hgd : (((a :: n :: u) : List Nat)[1]?).getD 0 = n := by simp
    have hdrop : (a :: n :: u).drop (8 + 4 * n) = u.drop (6 + 4 * n) := by
      rw [show 8 + 4 * n = (6 + 4 * n) + 2 by omega]
      rfl
    by_cases h : 6 + 4 * n ≤ u.length
    · obtain ⟨l, hl, hlen⟩ := ldapSid_parse_enough_ok a n u h
      refine ⟨?_, ?_, ?_⟩
      · rw [hgd]
        constructor
        · intro _
          simp only [List.length_cons]
          omega
        · intro _
          exact ⟨_, _, hl⟩
      · intro sid r hok
        rw [hl] at hok
        simp only [Except.ok.injEq, Prod.mk.injEq] at hok
        obtain ⟨hsid, hr⟩ := hok
        rw [hgd, ← hsid, ← hr, hdrop]
        exact ⟨rfl, hlen, rfl⟩
      · intro hlt
        rw [hgd] at hlt
        simp only [List.length_cons] at hlt
        omega
    · refine ⟨?_, ?_, ?_⟩
      · rw [hgd]
        constructor
        · intro ⟨sid, r, hok⟩
          rw [ldapSid_parse_truncated_err a n u (by omega)] at hok
          exact absurd hok (by simp)
        · intro hle
          simp only [List.length_cons] at hle
          omega
      · intro sid r hok
        rw [ldapSid_parse_truncated_err a n u (by omega)] at hok
        exact absurd hok (by simp)
      · intro _
        exact ldapSid_parse_truncated_err a n u (by omega)

/-- Witness for C2 at the spec's 16-byte SID vector (and its 15-byte
truncation, which must fail with `InsufficientData`). -/
theorem c2_sid_decode_characterization_witness :
    (LdapSid.parse (sidExampleBytes.take 15) = .error .insufficientData)
    ∧ (([] : List Nat) = sidExampleBytes.drop
          (8 + 4 * ((sidExampleBytes[1]?).getD 0))
        ∧ ([0x20, 0x220] : List Nat).length = 2
        ∧ (2 : Nat) = (sidExampleBytes[1]?).getD 0) :=
  ⟨(c2_sid_decode_characterization (sidExampleBytes.take 15)).2.2 (by decide),
   (c2_sid_decode_characterization sidExampleBytes).2.1
     ⟨1, 2, ⟨[0, 0, 0, 0, 0, 5]⟩, [0x20, 0x220]⟩ [] (by decide)⟩

theorem le_u8_eq (s : List Nat) :
    le_u8 s = if 1 ≤ s.length then .ok (leVal (s.take 1), s.drop 1)
              else .error .insufficientData := by
  unfold le_u8 takeBytes
  split <;> rfl

theorem le_u16_cons (b0 b1 : Nat) (t : List Nat) :
    le_u16 (b0 :: b1 :: t) = .ok (b0 + 256 * b1, t) := by
  rw [le_u16_eq, if_pos (by simp)]
  simp [leVal]

theorem le_u32_cons (b0 b1 b2 b3 : Nat) (t : List Nat) :
    le_u32 (b0 :: b1 :: b2 :: b3 :: t) =
      .ok (b0 + 256 * (b1 + 256 * (b2 + 256 * b3)), t) := by
  rw [le_u32_eq, if_pos (by simp)]
  simp [leVal]

theorem secdesc_parse_short (s : List Nat) (h : s.length < 20) :
    SecurityDescriptor.parse s = .error .insufficientData := by
  simp only [SecurityDescriptor.parse]
  rw [le_u8_eq]; split
  case isFalse => simp
  case isTrue h1 =>
  simp only [bind_ok_eq]
  rw [le_u8_eq]; split
  case isFalse => simp
  case isTrue h2 =>
  simp only [bind_ok_eq]
  rw [le_u16_eq]; split
  case isFalse => simp
  case isTrue h3 =>
  simp only [bind_ok_eq]
  rw [le_u32_eq]; split
  case isFalse => simp
  case isTrue h4 =>
  simp only [bind_ok_eq]
  rw [le_u32_eq]; split
  case isFalse => simp
  case isTrue h5 =>
  simp only [bind_ok_eq]
  rw [le_u32_eq]; split
  case isFalse => simp
  case isTrue h6 =>
  simp only [bind_ok_eq]
  rw [le_u32_eq]; split
  case isFalse => simp
  case isTrue h7 =>
  simp only [List.length_drop] at h1 h2 h3 h4 h5 h6 h7
  omega

/-- C7: the security-descriptor header decoder reads revision, reserved,
little-endian control and the four little-endian 32-bit offsets in fixed
order, consuming exactly 20 bytes; any input shorter than 20 bytes fails
with `InsufficientData`; and the spec's 20-byte vector decodes to
revision 1, control 0x8C04, offsets 2424/0/0/20. -/
theorem c7_secdesc_header_decode :
    (∀ b0 b1 b2 b3 b4 b5 b6 b7 b8 b9 b10 b11 b12 b13 b14 b15 b16 b17 b18 b19 :
        Nat, ∀ rest : List Nat,
      SecurityDescriptor.parse (b0 :: b1 :: b2 :: b3 :: b4 :: b5 :: b6 :: b7 ::
          b8 :: b9 :: b10 :: b11 :: b12 :: b13 :: b14 :: b15 :: b16 :: b17 ::
          b18 :: b19 :: rest) =
        .ok ({ revision := b0, sbz1 := b1, control := b2 + 256 * b3,
               offset_owner := b4 + 256 * (b5 + 256 * (b6 + 256 * b7)),
               offset_group := b8 + 256 * (b9 + 256 * (b10 + 256 * b11)),
               offset_sacl := b12 + 256 * (b13 + 256 * (b14 + 256 * b15)),
               offset_dacl := b16 + 256 * (b17 + 256 * (b18 + 256 * b19)) },
             rest))
    ∧ (∀ s : List Nat, s.length < 20 →
        SecurityDescriptor.parse s = .error .insufficientData)
    ∧ SecurityDescriptor.parse
        [1, 0, 4, 140, 120, 9, 0, 0, 0, 0, 0, 0, 0, 0, 0, 0, 20, 0, 0, 0] =
      .ok ({ revision := 1, sbz1 := 0, control := 0x8C04,
             offset_owner := 2424, offset_group := 0, offset_sacl := 0,
             offset_dacl := 20 }, []) := by
  refine ⟨?_, secdesc_parse_short, by decide⟩
  intro b0 b1 b2 b3 b4 b5 b6 b7 b8 b9 b10 b11 b12 b13 b14 b15 b16 b17 b18 b19
    rest
  simp [SecurityDescriptor.parse, le_u8_cons, le_u16_cons, le_u32_cons]

/-- Witness for C7: a 3-byte input is shorter than the header and fails
with `InsufficientData`. -/
theorem c7_secdesc_header_decode_witness :
    SecurityDescriptor.parse [1, 2, 3] = .error .insufficientData :=
  c7_secdesc_header_decode.2.1 [1, 2, 3] (by decide)

/-- C1 (code bug): the source's comment on the unwrap says "Will never
fail" and the spec says unnamed bits are preserved, but
`ObjectAceFlags::from_bits` returns `None` for any word with a bit
outside `0x3`, so the unwrap panics on the 32-bit word `0x00000004`. -/
theorem c1_objectaceflags_unwrap_panics :
    ObjectAceFlags.parse [4, 0, 0, 0] = .error .panicUnwrap
    ∧ ObjectAceFlags.from_bits 4 = none := by decide

theorem countP_ok_length {α : Type}
    (p : List Nat → Except DecodeError (α × List Nat)) :
    ∀ (n : Nat) (s : List Nat) (l : List α) (r : List Nat),
      countP p n s = .ok (l, r) → l.length = n := by
  intro n
  induction n with
  | zero =>
    intro s l r h
    simp only [countP, Except.ok.injEq, Prod.mk.injEq] at h
    rw [← h.1]
    rfl
  | succ n ih =>
    intro s l r h
    cases hp : p s with
    | error e =>
      rw [countP, hp] at h
      exact absurd h (by simp)
    | ok v =>
      obtain ⟨a, s1⟩ := v
      rw [countP, hp] at h
      simp only [bind_ok_eq] at h
      cases hq : countP p n s1 with
      | error e =>
        rw [hq] at h
        exact absurd h (by simp)
      | ok w =>
        obtain ⟨l1, s2⟩ := w
        rw [hq] at h
        simp only [bind_ok_eq, Except.ok.injEq, Prod.mk.injEq] at h
        rw [← h.1]
        simp [ih s1 l1 s2 hq]

theorem acl_parse_header_ok (b0 b1 b2 b3 b4 b5 b6 b7 : Nat) (rest : List Nat)
    (d : List Ace) (r : List Nat)
    (h : countP Ace.parse (b4 + 256 * b5) rest = .ok (d, r)) :
    Acl.parse (b0 :: b1 :: b2 :: b3 :: b4 :: b5 :: b6 :: b7 :: rest) =
      .ok ({ acl_revision := b0, sbz1 := b1, acl_size := b2 + 256 * b3,
             ace_count := b4 + 256 * b5, sbz2 := b6 + 256 * b7,
             data := d }, r) := by
  simp [Acl.parse, le_u8_cons, le_u16_cons, h]

theorem acl_parse_header_err (b0 b1 b2 b3 b4 b5 b6 b7 : Nat) (rest : List Nat)
    (e : DecodeError)
    (h : countP Ace.parse (b4 + 256 * b5) rest = .error e) :
    Acl.parse (b0 :: b1 :: b2 :: b3 :: b4 :: b5 :: b6 :: b7 :: rest) =
      .error e := by
  simp [Acl.parse, le_u8_cons, le_u16_cons, h]

/-- C10: an ACL input whose ace-count field (bytes 4-5) is zero decodes
successfully after exactly the 8 header bytes, with an empty entry list,
whatever the acl-size field and the remaining bytes are. -/
theorem c10_acl_zero_count (b0 b1 b2 b3 b6 b7 : Nat) (rest : List Nat) :
    Acl.parse (b0 :: b1 :: b2 :: b3 :: 0 :: 0 :: b6 :: b7 :: rest) =
      .ok ({ acl_revision := b0, sbz1 := b1, acl_size := b2 + 256 * b3,
             ace_count := 0, sbz2 := b6 + 256 * b7, data := [] }, rest) := by
  have h : countP Ace.parse (0 + 256 * 0) rest = .ok ([], rest) := rfl
  have := acl_parse_header_ok b0 b1 b2 b3 0 0 b6 b7 rest [] rest h
  simpa using this

/-- C4: for any input holding the 8-byte ACL header, a successful
`Acl::parse` returns exactly as many entries as the decoded ace-count
field demands and records the acl-size field verbatim; and the two
acl-size bytes never influence anything but the recorded `acl_size`
field (success, entries and remainder are unchanged under any
replacement of those two bytes). -/
theorem c4_acl_count_driven (b0 b1 b2 b3 b4 b5 b6 b7 : Nat)
    (rest : List Nat) :
    (∀ acl r,
      Acl.parse (b0 :: b1 :: b2 :: b3 :: b4 :: b5 :: b6 :: b7 :: rest) =
        .ok (acl, r) →
      acl.data.length = acl.ace_count ∧ acl.acl_size = b2 + 256 * b3
      ∧ acl.ace_count = b4 + 256 * b5)
    ∧ (∀ x y,
      Acl.parse (b0 :: b1 :: x :: y :: b4 :: b5 :: b6 :: b7 :: rest) =
        (Acl.parse (b0 :: b1 :: b2 :: b3 :: b4 :: b5 :: b6 :: b7 :: rest)).map
          (fun p => ({ p.1 with acl_size := x + 256 * y }, p.2))) := by
  constructor
  · intro acl r h
    cases hc : countP Ace.parse (b4 + 256 * b5) rest with
    | error e =>
      rw [acl_parse_header_err b0 b1 b2 b3 b4 b5 b6 b7 rest e hc] at h
      exact absurd h (by simp)
    | ok v =>
      obtain ⟨d, r'⟩ := v
      rw [acl_parse_header_ok b0 b1 b2 b3 b4 b5 b6 b7 rest d r' hc] at h
      simp only [Except.ok.injEq, Prod.mk.injEq] at h
      rw [← h.1]
      exact ⟨countP_ok_length Ace.parse _ rest d r' hc, rfl, rfl⟩
  · intro x y
    cases hc : countP Ace.parse (b4 + 256 * b5) rest with
    | error e =>
      rw [acl_parse_header_err b0 b1 b2 b3 b4 b5 b6 b7 rest e hc,
          acl_parse_header_err b0 b1 x y b4 b5 b6 b7 rest e hc]
      rfl
    | ok v =>
      obtain ⟨d, r'⟩ := v
      rw [acl_parse_header_ok b0 b1 b2 b3 b4 b5 b6 b7 rest d r' hc,
          acl_parse_header_ok b0 b1 x y b4 b5 b6 b7 rest d r' hc]
      rfl

theorem allowedAce_parse_shape (s : List Nat) (d : AceFormat)
    (r : List Nat) (h : AccessAllowedAce.parse s = .ok (d, r)) :
    ∃ pay, d = .aceAllowed pay := by
  cases hm : le_u32 s with
  | error e =>
    rw [AccessAllowedAce.parse, hm] at h
    exact absurd h (by simp)
  | ok v =>
    obtain ⟨m, s1⟩ := v
    rw [AccessAllowedAce.parse, hm] at h
    simp only [bind_ok_eq] at h
    cases hs : LdapSid.parse s1 with
    | error e =>
      rw [hs] at h
      exact absurd h (by simp)
    | ok w =>
      obtain ⟨sid, s2⟩ := w
      rw [hs] at h
      simp only [bind_ok_eq, Except.ok.injEq, Prod.mk.injEq] at h
      exact ⟨_, h.1.symm⟩

theorem bind_eq_ok_iff {α β : Type} (e : Except DecodeError α)
    (f : α → Except DecodeError β) (v : β) :
    (e >>= f) = .ok v ↔ ∃ w, e = .ok w ∧ f w = .ok v := by
  cases e <;> simp

theorem containsF_object_iff (fl : ObjectAceFlags) :
    fl.containsF ObjectAceFlags.ACE_OBJECT_PRESENT = true ↔
      fl.bits &&& 1 = 1 := by
  simp [ObjectAceFlags.containsF, ObjectAceFlags.ACE_OBJECT_PRESENT]

theorem containsF_inherited_iff (fl : ObjectAceFlags) :
    fl.containsF ObjectAceFlags.ACE_INHERITED_OBJECT_PRESENT = true ↔
      fl.bits &&& 2 = 2 := by
  simp [ObjectAceFlags.containsF, ObjectAceFlags.ACE_INHERITED_OBJECT_PRESENT]

theorem condP_isSome {α : Type} (c : Bool)
    (p : List Nat → Except DecodeError (α × List Nat)) (s : List Nat)
    (w : Option α) (r : List Nat) (h : condP c p s = .ok (w, r)) :
    w.isSome = c ∧ (c = false → w = none ∧ r = s) := by
  unfold condP at h
  cases c with
  | false =>
    simp only [Bool.false_eq_true, if_false, Except.ok.injEq,
               Prod.mk.injEq] at h
    simp [← h.1, ← h.2]
  | true =>
    simp only [if_true] at h
    cases hp : p s with
    | error e =>
      rw [hp] at h
      exact absurd h (by simp)
    | ok v =>
      obtain ⟨a, r'⟩ := v
      rw [hp] at h
      simp only [Except.ok.injEq, Prod.mk.injEq] at h
      simp [← h.1]

theorem objectAce_parse_shape (s : List Nat) (d : AceFormat)
    (r : List Nat) (h : AccessAllowedObjectAce.parse s = .ok (d, r)) :
    ∃ oa, d = .aceObjectAllowed oa
      ∧ (oa.object_type.isSome ↔ oa.flags.bits &&& 0x1 = 0x1)
      ∧ (oa.inherited_object_type.isSome ↔ oa.flags.bits &&& 0x2 = 0x2) := by
  rw [AccessAllowedObjectAce.parse, bind_eq_ok_iff] at h
  obtain ⟨⟨m, s1⟩, hm, h⟩ := h
  rw [bind_eq_ok_iff] at h
  obtain ⟨⟨fl, s2⟩, hf, h⟩ := h
  rw [bind_eq_ok_iff] at h
  obtain ⟨⟨ot, s3⟩, hot, h⟩ := h
  rw [bind_eq_ok_iff] at h
  obtain ⟨⟨iot, s4⟩, hiot, h⟩ := h
  rw [bind_eq_ok_iff] at h
  obtain ⟨⟨sid, s5⟩, hsid, h⟩ := h
  simp only [Except.ok.injEq, Prod.mk.injEq] at h
  refine ⟨_, h.1.symm, ?_, ?_⟩
  · rcases condP_isSome _ _ _ _ _ hot with ⟨hsome, _⟩
    rw [hsome, ← containsF_object_iff]
  · rcases condP_isSome _ _ _ _ _ hiot with ⟨hsome, _⟩
    rw [hsome, ← containsF_inherited_iff]

theorem ace_parse_header_dispatch (t fl a b : Nat) (pl : List Nat) :
    Ace.parse (t :: fl :: a :: b :: pl) =
      (if t = ACCESS_ALLOWED_ACE_TYPE ∨ t = ACCESS_DENIED_ACE_TYPE then
        (AccessAllowedAce.parse pl).map
          (fun p => ({ ace_type := t, ace_flags := fl,
                       ace_size := a + 256 * b, data := p.1 }, p.2))
      else if t = ACCESS_ALLOWED_OBJECT_ACE_TYPE
          ∨ t = ACCESS_DENIED_OBJECT_ACE_TYPE then
        (AccessAllowedObjectAce.parse pl).map
          (fun p => ({ ace_type := t, ace_flags := fl,
                       ace_size := a + 256 * b, data := p.1 }, p.2))
      else .error .unrecognizedVariant) := by
  simp only [Ace.parse, le_u8_cons, bind_ok_eq, le_u16_cons]
  by_cases h0 : t = ACCESS_ALLOWED_ACE_TYPE
  case pos =>
    subst h0
    rw [if_pos rfl, if_pos (Or.inl rfl)]
    cases hp : AccessAllowedAce.parse pl <;> simp [Except.map, hp]
  case neg =>
  by_cases h1 : t = ACCESS_DENIED_ACE_TYPE
  case pos =>
    subst h1
    rw [if_neg (by decide), if_pos rfl, if_pos (Or.inr rfl)]
    cases hp : AccessAllowedAce.parse pl <;> simp [Except.map, hp]
  case neg =>
  by_cases h5 : t = ACCESS_ALLOWED_OBJECT_ACE_TYPE
  case pos =>
    subst h5
    rw [if_neg (by decide), if_neg (by decide), if_pos rfl,
        if_neg (by decide), if_pos (Or.inl rfl)]
    cases hp : AccessAllowedObjectAce.parse pl <;> simp [Except.map, hp]
  case neg =>
  by_cases h6 : t = ACCESS_DENIED_OBJECT_ACE_TYPE
  case pos =>
    subst h6
    rw [if_neg (by decide), if_neg (by decide), if_neg (by decide),
        if_pos rfl, if_neg (by decide), if_pos (Or.inr rfl)]
    cases hp : AccessAllowedObjectAce.parse pl <;> simp [Except.map, hp]
  case neg =>
    rw [if_neg h0, if_neg h1, if_neg h5, if_neg h6,
        if_neg (by tauto), if_neg (by tauto)]
    rfl

theorem ace_parse_short (s : List Nat) (h : s.length < 4) :
    Ace.parse s = .error .insufficientData := by
  match s, h with
  | [], _ => rfl
  | [a], _ => simp [Ace.parse, le_u8_cons, le_u8_nil]
  | [a, b], _ => simp [Ace.parse, le_u8_cons, le_u16_eq]
  | [a, b, c], _ => simp [Ace.parse, le_u8_cons, le_u16_eq]

/-- C6: the access-denied tag decodes exactly as the access-allowed tag
(same payload, consumed bytes and outcome, differing only in the
recorded type tag), the object-denied tag decodes exactly as the
object-allowed tag, and a success of either tag of the allowed/denied
pair carries an `AceAllowed` payload. -/
theorem c6_paired_tags_share_decoder (fl a b : Nat) (pl : List Nat) :
    (Ace.parse (ACCESS_DENIED_ACE_TYPE :: fl :: a :: b :: pl) =
      (Ace.parse (ACCESS_ALLOWED_ACE_TYPE :: fl :: a :: b :: pl)).map
        (fun p => ({ p.1 with ace_type := ACCESS_DENIED_ACE_TYPE }, p.2)))
    ∧ (Ace.parse (ACCESS_DENIED_OBJECT_ACE_TYPE :: fl :: a :: b :: pl) =
      (Ace.parse (ACCESS_ALLOWED_OBJECT_ACE_TYPE :: fl :: a :: b :: pl)).map
        (fun p => ({ p.1 with ace_type := ACCESS_DENIED_OBJECT_ACE_TYPE },
                    p.2)))
    ∧ (∀ ace r,
        Ace.parse (ACCESS_ALLOWED_ACE_TYPE :: fl :: a :: b :: pl) =
            .ok (ace, r)
          ∨ Ace.parse (ACCESS_DENIED_ACE_TYPE :: fl :: a :: b :: pl) =
            .ok (ace, r) →
        ∃ pay, ace.data = .aceAllowed pay) := by
  refine ⟨?_, ?_, ?_⟩
  · rw [ace_parse_header_dispatch, ace_parse_header_dispatch, if_pos (Or.inr rfl),
        if_pos (Or.inl rfl)]
    cases hp : AccessAllowedAce.parse pl <;> simp [Except.map, hp]
  · rw [ace_parse_header_dispatch, ace_parse_header_dispatch, if_neg (by decide),
        if_pos (Or.inr rfl), if_neg (by decide), if_pos (Or.inl rfl)]
    cases hp : AccessAllowedObjectAce.parse pl <;> simp [Except.map, hp]
  · intro ace r hor
    have extract : ∀ tg : Nat,
        Ace.parse (tg :: fl :: a :: b :: pl) = .ok (ace, r) →
        (tg = ACCESS_ALLOWED_ACE_TYPE ∨ tg = ACCESS_DENIED_ACE_TYPE) →
        ∃ pay, ace.data = .aceAllowed pay := by
      intro tg h htg
      rw [ace_parse_header_dispatch, if_pos htg] at h
      cases hp : AccessAllowedAce.parse pl with
      | error e =>
        rw [hp] at h
        exact absurd h (by simp [Except.map])
      | ok v =>
        rw [hp] at h
        simp only [Except.map, Except.ok.injEq, Prod.mk.injEq] at h
        obtain ⟨pay, hpay⟩ :=
          allowedAce_parse_shape pl v.1 v.2 (by rw [hp])
        exact ⟨pay, by rw [← h.1]; exact hpay⟩
    rcases hor with h | h
    · exact extract _ h (Or.inl rfl)
    · exact extract _ h (Or.inr rfl)

/-- C8: a successfully decoded ACE never carries the `Empty` placeholder
payload; `get_mask` and `get_sid` are `some` on it, and `get_flags` is
`some` exactly when the payload is the object variant. -/
theorem c8_decoded_payload_never_empty (s : List Nat) (ace : Ace)
    (r : List Nat) (h : Ace.parse s = .ok (ace, r)) :
    ace.data ≠ .empty
    ∧ (AceFormat.get_mask ace.data).isSome
    ∧ (AceFormat.get_sid ace.data).isSome
    ∧ ((AceFormat.get_flags ace.data).isSome ↔
        ∃ oa, ace.data = .aceObjectAllowed oa) := by
  match s with
  | [] =>
    rw [ace_parse_short _ (by simp)] at h
    exact absurd h (by simp)
  | [x] =>
    rw [ace_parse_short _ (by simp)] at h
    exact absurd h (by simp)
  | [x, y] =>
    rw [ace_parse_short _ (by simp)] at h
    exact absurd h (by simp)
  | [x, y, z] =>
    rw [ace_parse_short _ (by simp)] at h
    exact absurd h (by simp)
  | t :: fl :: a :: b :: pl =>
    rw [ace_parse_header_dispatch] at h
    split at h
    case isTrue =>
      cases hp : AccessAllowedAce.parse pl with
      | error e =>
        rw [hp] at h
        exact absurd h (by simp [Except.map])
      | ok v =>
        rw [hp] at h
        simp only [Except.map, Except.ok.injEq, Prod.mk.injEq] at h
        obtain ⟨pay, hpay⟩ :=
          allowedAce_parse_shape pl v.1 v.2 (by rw [hp])
        rw [← h.1]
        simp [hpay, AceFormat.get_mask, AceFormat.get_sid,
              AceFormat.get_flags]
    case isFalse =>
      split at h
      case isTrue =>
        cases hp : AccessAllowedObjectAce.parse pl with
        | error e =>
          rw [hp] at h
          exact absurd h (by simp [Except.map])
        | ok v =>
          rw [hp] at h
          simp only [Except.map, Except.ok.injEq, Prod.mk.injEq] at h
          obtain ⟨oa, hoa, _, _⟩ :=
            objectAce_parse_shape pl v.1 v.2 (by rw [hp])
          rw [← h.1]
          simp [hoa, AceFormat.get_mask, AceFormat.get_sid,
                AceFormat.get_flags]
      case isFalse =>
        exact absurd h (by simp)

/-- C9: the two declared-size bytes of an ACE influence only the
recorded `ace_size` field: decoding with any replacement of bytes 2-3
produces the same outcome, payload and remainder, with only `ace_size`
changed to the new declared value. -/
theorem c9_ace_size_noninterference (t fl x y x2 y2 : Nat) (pl : List Nat) :
    Ace.parse (t :: fl :: x2 :: y2 :: pl) =
      (Ace.parse (t :: fl :: x :: y :: pl)).map
        (fun p => ({ p.1 with ace_size := x2 + 256 * y2 }, p.2)) := by
  rw [ace_parse_header_dispatch, ace_parse_header_dispatch]
  split
  case isTrue =>
    cases hp : AccessAllowedAce.parse pl <;> simp [Except.map, hp]
  case isFalse =>
    split
    case isTrue =>
      cases hp : AccessAllowedObjectAce.parse pl <;> simp [Except.map, hp]
    case isFalse => rfl

theorem countP_error_mid {α : Type}
    (p : List Nat → Except DecodeError (α × List Nat)) (e : DecodeError) :
    ∀ (k : Nat) (s : List Nat) (pre : List α) (s2 : List Nat) (n : Nat),
      countP p k s = .ok (pre, s2) → p s2 = .error e → k < n →
      countP p n s = .error e := by
  intro k
  induction k with
  | zero =>
    intro s pre s2 n hok herr hn
    simp only [countP, Except.ok.injEq, Prod.mk.injEq] at hok
    obtain ⟨m, rfl⟩ : ∃ m, n = m + 1 := ⟨n - 1, by omega⟩
    rw [countP, hok.2, herr]
    rfl
  | succ k ih =>
    intro s pre s2 n hok herr hn
    cases hp : p s with
    | error e2 =>
      rw [countP, hp] at hok
      exact absurd hok (by simp)
    | ok v =>
      obtain ⟨a, s1⟩ := v
      rw [countP, hp] at hok
      simp only [bind_ok_eq] at hok
      cases hq : countP p k s1 with
      | error e2 =>
        rw [hq] at hok
        exact absurd hok (by simp)
      | ok w =>
        obtain ⟨pre1, s3⟩ := w
        rw [hq] at hok
        simp only [bind_ok_eq, Except.ok.injEq, Prod.mk.injEq] at hok
        obtain ⟨m, rfl⟩ : ∃ m, n = m + 1 := ⟨n - 1, by omega⟩
        rw [countP, hp]
        simp only [bind_ok_eq]
        rw [ih s1 pre1 s2 m (hok.2 ▸ hq) herr (by omega)]
        rfl

/-- C3: an ACE whose type tag lies outside the four recognized constants
fails with `UnrecognizedVariant` whatever the remaining header and
payload bytes hold, and when such an ACE sits at any position of an
ACL's declared entry sequence, `Acl::parse` returns that very error (no
skip-and-continue, no partial-record return). -/
theorem c3_unknown_tag_unrecognized (t fl a b : Nat) (pl : List Nat)
    (ht : t ∉ [ACCESS_ALLOWED_ACE_TYPE, ACCESS_DENIED_ACE_TYPE,
               ACCESS_ALLOWED_OBJECT_ACE_TYPE,
               ACCESS_DENIED_OBJECT_ACE_TYPE]) :
    Ace.parse (t :: fl :: a :: b :: pl) = .error .unrecognizedVariant
    ∧ (∀ (b0 b1 b2 b3 b4 b5 b6 b7 : Nat) (rest : List Nat) (k : Nat)
         (pre : List Ace),
        k < b4 + 256 * b5 →
        countP Ace.parse k rest = .ok (pre, t :: fl :: a :: b :: pl) →
        Acl.parse (b0 :: b1 :: b2 :: b3 :: b4 :: b5 :: b6 :: b7 :: rest) =
          .error .unrecognizedVariant) := by
  simp only [List.mem_cons, List.not_mem_nil, or_false, not_or] at ht
  obtain ⟨h0, h1, h5, h6⟩ := ht
  have hace : Ace.parse (t :: fl :: a :: b :: pl) =
      .error .unrecognizedVariant := by
    rw [ace_parse_header_dispatch, if_neg (by tauto), if_neg (by tauto)]
  refine ⟨hace, ?_⟩
  intro b0 b1 b2 b3 b4 b5 b6 b7 rest k pre hk hcount
  exact acl_parse_header_err b0 b1 b2 b3 b4 b5 b6 b7 rest .unrecognizedVariant
    (countP_error_mid Ace.parse .unrecognizedVariant k rest pre _ _
      hcount hace hk)

/-- Witness for C3: the tag `0xFF` is rejected, both alone and as the
first entry of an ACL declaring one entry. -/
theorem c3_unknown_tag_unrecognized_witness :
    Ace.parse [0xFF, 0, 0, 0] = .error .unrecognizedVariant
    ∧ Acl.parse [2, 0, 8, 0, 1, 0, 0, 0, 0xFF, 0, 0, 0] =
        .error .unrecognizedVariant := by
  have h := c3_unknown_tag_unrecognized 0xFF 0 0 0 [] (by decide)
  exact ⟨h.1, h.2 2 0 8 0 1 0 0 0 [0xFF, 0, 0, 0] 0 [] (by decide) rfl⟩

theorem le_u128_append (g rest : List Nat) (hg : g.length = 16) :
    le_u128 (g ++ rest) = .ok (leVal g, rest) := by
  rw [le_u128_eq, if_pos (by simp [hg]), ← hg, List.take_left,
      List.drop_left]

theorem objectAceFlags_parse_two (t : List Nat) :
    ObjectAceFlags.parse (2 :: 0 :: 0 :: 0 :: t) = .ok (⟨2⟩, t) := by
  simp only [ObjectAceFlags.parse, le_u32_cons, bind_ok_eq]
  rw [(by decide : ObjectAceFlags.from_bits
        (2 + 256 * (0 + 256 * (0 + 256 * 0))) = some ⟨2⟩)]

theorem objectAceFlags_parse_three (t : List Nat) :
    ObjectAceFlags.parse (3 :: 0 :: 0 :: 0 :: t) = .ok (⟨3⟩, t) := by
  simp only [ObjectAceFlags.parse, le_u32_cons, bind_ok_eq]
  rw [(by decide : ObjectAceFlags.from_bits
        (3 + 256 * (0 + 256 * (0 + 256 * 0))) = some ⟨3⟩)]

/-- C5: an object-ACE payload reads the mask, then the flags word, then
an object-type GUID iff bit 0x1 is set, then an inherited-object-type
GUID iff bit 0x2 is set, then the SID, in that fixed order; with flags
word 2 the object-type GUID is absent and the 16 bytes before the SID
become the inherited-object-type GUID; with flags word 3 both GUIDs are
read, object-type first. -/
theorem c5_object_ace_flag_gated_guids :
    (∀ s d r, AccessAllowedObjectAce.parse s = .ok (d, r) →
      ∃ oa, d = .aceObjectAllowed oa
        ∧ (oa.object_type.isSome ↔ oa.flags.bits &&& 0x1 = 0x1)
        ∧ (oa.inherited_object_type.isSome ↔ oa.flags.bits &&& 0x2 = 0x2))
    ∧ (∀ m0 m1 m2 m3 : Nat, ∀ g sidrest : List Nat, g.length = 16 →
        AccessAllowedObjectAce.parse
            (m0 :: m1 :: m2 :: m3 :: 2 :: 0 :: 0 :: 0 :: (g ++ sidrest)) =
          (LdapSid.parse sidrest).map (fun p =>
            (.aceObjectAllowed
              { mask := m0 + 256 * (m1 + 256 * (m2 + 256 * m3)),
                flags := ⟨2⟩, object_type := none,
                inherited_object_type := some (leVal g), sid := p.1 },
             p.2)))
    ∧ (∀ m0 m1 m2 m3 : Nat, ∀ g1 g2 sidrest : List Nat,
        g1.length = 16 → g2.length = 16 →
        AccessAllowedObjectAce.parse
            (m0 :: m1 :: m2 :: m3 :: 3 :: 0 :: 0 :: 0 ::
              (g1 ++ g2 ++ sidrest)) =
          (LdapSid.parse sidrest).map (fun p =>
            (.aceObjectAllowed
              { mask := m0 + 256 * (m1 + 256 * (m2 + 256 * m3)),
                flags := ⟨3⟩, object_type := some (leVal g1),
                inherited_object_type := some (leVal g2), sid := p.1 },
             p.2))) := by
  refine ⟨objectAce_parse_shape, ?_, ?_⟩
  · intro m0 m1 m2 m3 g sidrest hg
    simp only [AccessAllowedObjectAce.parse, le_u32_cons, bind_ok_eq,
               objectAceFlags_parse_two]
    rw [(by decide : (⟨2⟩ : ObjectAceFlags).containsF
          ObjectAceFlags.ACE_OBJECT_PRESENT = false),
        (by decide : (⟨2⟩ : ObjectAceFlags).containsF
          ObjectAceFlags.ACE_INHERITED_OBJECT_PRESENT = true)]
    simp only [condP, Bool.false_eq_true, if_false, if_true,
               le_u128_append g sidrest hg, bind_ok_eq]
    cases hs : LdapSid.parse sidrest <;> simp [Except.map, hs]
  · intro m0 m1 m2 m3 g1 g2 sidrest hg1 hg2
    rw [List.append_assoc]
    simp only [AccessAllowedObjectAce.parse, le_u32_cons, bind_ok_eq,
               objectAceFlags_parse_three]
    rw [(by decide : (⟨3⟩ : ObjectAceFlags).containsF
          ObjectAceFlags.ACE_OBJECT_PRESENT = true),
        (by decide : (⟨3⟩ : ObjectAceFlags).containsF
          ObjectAceFlags.ACE_INHERITED_OBJECT_PRESENT = true)]
    simp only [condP, if_true, le_u128_append g1 (g2 ++ sidrest) hg1,
               le_u128_append g2 sidrest hg2, bind_ok_eq]
    cases hs : LdapSid.parse sidrest <;> simp [Except.map, hs]

/-- Witness for C4: a one-entry ACL whose declared size (99) disagrees
with its true byte length still decodes its declared entry, and
changing the size bytes only changes the recorded `acl_size`. -/
theorem c4_acl_count_driven_witness :
    (aclExampleRecord.data.length = aclExampleRecord.ace_count
      ∧ aclExampleRecord.acl_size = 99 + 256 * 0
      ∧ aclExampleRecord.ace_count = 1 + 256 * 0)
    ∧ Acl.parse (2 :: 0 :: 7 :: 1 :: 1 :: 0 :: 0 :: 0 ::
          aceAllowedExampleBytes) =
        (Acl.parse (2 :: 0 :: 99 :: 0 :: 1 :: 0 :: 0 :: 0 ::
            aceAllowedExampleBytes)).map
          (fun p => ({ p.1 with acl_size := 7 + 256 * 1 }, p.2)) :=
  ⟨(c4_acl_count_driven 2 0 99 0 1 0 0 0 aceAllowedExampleBytes).1
      aclExampleRecord [] (by decide),
   (c4_acl_count_driven 2 0 99 0 1 0 0 0 aceAllowedExampleBytes).2 7 1⟩

/-- Witness for C5 at the source's object-ACE test vector: flags word 2,
one 16-byte GUID landing in the inherited-object-type slot. -/
theorem c5_object_ace_flag_gated_guids_witness :
    AccessAllowedObjectAce.parse
        (0x94 :: 0x00 :: 0x02 :: 0x00 :: 2 :: 0 :: 0 :: 0 ::
          (guidExampleBytes ++ sidExampleBytes)) =
      (LdapSid.parse sidExampleBytes).map (fun p =>
        (.aceObjectAllowed
          { mask := 0x94 + 256 * (0 + 256 * (2 + 256 * 0)),
            flags := ⟨2⟩, object_type := none,
            inherited_object_type := some (leVal guidExampleBytes),
            sid := p.1 },
         p.2)) :=
  c5_object_ace_flag_gated_guids.2.1 0x94 0x00 0x02 0x00 guidExampleBytes
    sidExampleBytes (by decide)

/-- Witness for C6 at the source's allowed-ACE test vector. -/
theorem c6_paired_tags_share_decoder_witness :
    Ace.parse (ACCESS_DENIED_ACE_TYPE :: 0x12 :: 0x18 :: 0x00 ::
        ([0xbd, 0x01, 0x0f, 0x00] ++ sidExampleBytes)) =
      (Ace.parse (ACCESS_ALLOWED_ACE_TYPE :: 0x12 :: 0x18 :: 0x00 ::
          ([0xbd, 0x01, 0x0f, 0x00] ++ sidExampleBytes))).map
        (fun p => ({ p.1 with ace_type := ACCESS_DENIED_ACE_TYPE }, p.2))
    ∧ ∃ pay, aceExampleRecord.data = .aceAllowed pay :=
  ⟨(c6_paired_tags_share_decoder 0x12 0x18 0x00
      ([0xbd, 0x01, 0x0f, 0x00] ++ sidExampleBytes)).1,
   (c6_paired_tags_share_decoder 0x12 0x18 0x00
      ([0xbd, 0x01, 0x0f, 0x00] ++ sidExampleBytes)).2.2
     aceExampleRecord [] (Or.inl (by decide))⟩

/-- Witness for C8 at the source's allowed-ACE test vector. -/
theorem c8_decoded_payload_never_empty_witness :
    aceExampleRecord.data ≠ .empty
    ∧ (AceFormat.get_mask aceExampleRecord.data).isSome
    ∧ (AceFormat.get_sid aceExampleRecord.data).isSome
    ∧ ((AceFormat.get_flags aceExampleRecord.data).isSome ↔
        ∃ oa, aceExampleRecord.data = .aceObjectAllowed oa) :=
  c8_decoded_payload_never_empty aceAllowedExampleBytes aceExampleRecord []
    (by decide)
